import Mathlib

/-!
Shallow embedding of the shadcn-registries sync tooling.

Sources embedded here:
- src/shared/fetch.ts           (fetchWithRetry, validateRegistryItem)
- src/registries/limeplay/scripts/sync.ts   (deduplicateItems, filters, download/save pipeline)
- src/registries/aceternity/scripts/sync.ts (fetchRegistryIndex without dedup, only-filter)
- src/scripts/sync-all.ts       (multi-source runner)

JavaScript values decoded from JSON are modelled by the `Json` type; JS
truthiness, typeof checks, and property access (including the TypeError
thrown when reading a property of null) are modelled explicitly.  Network
and clock effects are parameters: a fetch oracle assigns each item name
(or attempt number) its outcome, and the timestamp is an input string.
Disk writes are collected into a list of (path, content) pairs.
-/

namespace ShadcnRegistries

/-- JSON values as produced by response.json() / JSON.parse.  Numbers are
modelled as integers (no claim depends on fractional values). -/
inductive Json where
  | null : Json
  | bool : Bool → Json
  | num : Int → Json
  | str : String → Json
  | arr : List Json → Json
  | obj : List (String × Json) → Json

/-- JS truthiness of a value. -/
def Json.truthy : Json → Bool
  | .null => false
  | .bool b => b
  | .num n => n != 0
  | .str s => s != ""
  | .arr _ => true
  | .obj _ => true

/-- typeof v === "object" for non-null values: arrays and plain objects. -/
def Json.isObjectLike : Json → Bool
  | .arr _ => true
  | .obj _ => true
  | _ => false

/-- Non-throwing JS property access: a lookup on an object, undefined
(none) on arrays and primitives.  Used where the receiver is known not to
be null or undefined. -/
def Json.field : Json → String → Option Json
  | .obj kvs, k => kvs.lookup k
  | _, _ => none

/-- JS property access that can throw: reading a property of null raises a
TypeError, modelled as an Except error. -/
def jsGet (v : Json) (k : String) : Except String (Option Json) :=
  match v with
  | .null => .error ("TypeError: cannot read properties of null (reading " ++ k ++ ")")
  | j => .ok (j.field k)

mutual
/-- JS string coercion, as used by template literals. -/
def Json.jsToString : Json → String
  | .null => "null"
  | .bool true => "true"
  | .bool false => "false"
  | .num n => toString n
  | .str s => s
  | .arr xs => String.intercalate "," (jsToStringList xs)
  | .obj _ => "[object Object]"

def jsToStringList : List Json → List String
  | [] => []
  | x :: xs => Json.jsToString x :: jsToStringList xs
end

/-- JS template interpolation of a possibly-undefined value. -/
def jsTemplate : Option Json → String
  | none => "undefined"
  | some v => v.jsToString

/-- The check pattern (!x || typeof x !== "string") used for name, type and
file fields: passing means the field is a non-empty string. -/
def isNonEmptyString : Option Json → Bool
  | some (.str s) => s != ""
  | _ => false

/-- typeof d === "string" on a single element. -/
def Json.isStr : Json → Bool
  | .str _ => true
  | _ => false

/-- Result shape of validateRegistryItem:
{valid: true, warnings?} | {valid: false, error}. -/
inductive ValidationResult where
  | valid : Option (List String) → ValidationResult
  | invalid : String → ValidationResult

def VALID_ITEM_TYPES : List String :=
  ["registry:style", "registry:lib", "registry:example", "registry:block",
   "registry:component", "registry:ui", "registry:hook", "registry:theme",
   "registry:page"]

def REGISTRY_ITEM_SCHEMA : String := "https://ui.shadcn.com/schema/registry-item.json"

/-- The $schema block of validateRegistryItem: a missing or falsy $schema,
or one different from the canonical URL, yields a warning, never an error. -/
def schemaWarnings : Option Json → List String
  | none => ["Missing $schema field"]
  | some v =>
    if !v.truthy then ["Missing $schema field"]
    else
      match v with
      | .str s =>
        if s == REGISTRY_ITEM_SCHEMA then []
        else ["Non-standard $schema: " ++ s]
      | w => ["Non-standard $schema: " ++ w.jsToString]

/-- The files loop of validateRegistryItem.  Each element is accessed with
file.path / file.type, which throws on a null element (jsGet); a missing or
non-string path/type yields a positional validation error.  Returns
ok none when all elements pass. -/
def checkFiles : List Json → Nat → Except String (Option String)
  | [], _ => .ok none
  | f :: rest, i =>
    match jsGet f "path" with
    | .error e => .error e
    | .ok pathVal =>
      if !(isNonEmptyString pathVal) then
        .ok (some s!"files[{i}]: missing path")
      else
        match jsGet f "type" with
        | .error e => .error e
        | .ok typeVal =>
          if !(isNonEmptyString typeVal) then
            .ok (some s!"files[{i}]: missing type")
          else
            checkFiles rest (i + 1)

/-- The dependencies / registryDependencies block: if present the field must
be an array whose every element is a string. -/
def checkStringArray (field : Option Json) (fieldName : String) : Option String :=
  match field with
  | none => none
  | some (.arr xs) =>
    if xs.all Json.isStr then none
    else some (fieldName ++ " must be string array")
  | some _ => some (fieldName ++ " must be an array")

/-- Tail of validateRegistryItem after the files section: dependency checks,
then the valid result with collected warnings (undefined when empty). -/
def depsSection (item : Json) (warnings : List String) : Except String ValidationResult :=
  match checkStringArray (item.field "dependencies") "dependencies" with
  | some e => .ok (.invalid e)
  | none =>
    match checkStringArray (item.field "registryDependencies") "registryDependencies" with
    | some e => .ok (.invalid e)
    | none => .ok (.valid (if warnings.isEmpty then none else some warnings))

/-- validateRegistryItem from src/shared/fetch.ts.  The Except layer records
a thrown JS exception (possible only in the files loop, reading a property
of a null element); every other path returns a ValidationResult. -/
def validateRegistryItem (item : Json) : Except String ValidationResult :=
  if !(item.truthy && item.isObjectLike) then
    .ok (.invalid "Item must be an object")
  else if !(isNonEmptyString (item.field "name")) then
    .ok (.invalid "Missing or invalid name field")
  else if !(isNonEmptyString (item.field "type")) then
    .ok (.invalid "Missing or invalid type field")
  else if !(VALID_ITEM_TYPES.contains (jsTemplate (item.field "type"))) then
    .ok (.invalid ("Invalid type: " ++ jsTemplate (item.field "type")))
  else
    match item.field "files" with
    | none => depsSection item (schemaWarnings (item.field "$schema"))
    | some (.arr files) =>
      match checkFiles files 0 with
      | .error e => .error e
      | .ok (some msg) => .ok (.invalid msg)
      | .ok none => depsSection item (schemaWarnings (item.field "$schema"))
    | some _ => .ok (.invalid "files must be an array")

/-! ## HTTP retrieval with retry

Each network attempt is abstracted by an oracle from the attempt number to
its outcome.  A run is summarised by a trace: how many attempts were made,
which sleeps (in ms) happened between them, and the final result. -/

structure FetchTrace (α : Type) where
  attempts : Nat
  sleeps : List Nat
  result : Except String α

/-- Loop body of fetchWithRetry from src/shared/fetch.ts: on failure at
attempt i with attempts remaining, sleep baseDelay * 2 ^ i and retry.  The
fuel counts the attempts still allowed; it enters at retries + 1, so the
fuel-0 fallback mirrors the unreachable (lastError ?? "Unknown fetch error")
default. -/
def sharedRetryLoop (oracle : Nat → Except String α) (baseDelay : Nat) :
    Nat → Nat → FetchTrace α
  | _, 0 => { attempts := 0, sleeps := [], result := .error "Unknown fetch error" }
  | attempt, fuel + 1 =>
    match oracle attempt with
    | .ok v => { attempts := 1, sleeps := [], result := .ok v }
    | .error e =>
      if fuel = 0 then
        { attempts := 1, sleeps := [], result := .error e }
      else
        let rest := sharedRetryLoop oracle baseDelay (attempt + 1) fuel
        { attempts := rest.attempts + 1,
          sleeps := baseDelay * 2 ^ attempt :: rest.sleeps,
          result := rest.result }

/-- fetchWithRetry from src/shared/fetch.ts (defaults retries = 3,
delay = 1000 per DEFAULT_CONFIG). -/
def fetchWithRetry (oracle : Nat → Except String α) (retries : Nat := 3)
    (baseDelay : Nat := 1000) : FetchTrace α :=
  sharedRetryLoop oracle baseDelay 0 (retries + 1)

/-- RETRY_DELAY from the limeplay / aceternity sync scripts. -/
def RETRY_DELAY : Nat := 1000

/-- RETRY_COUNT from the limeplay / aceternity sync scripts. -/
def RETRY_COUNT : Nat := 3

/-- Loop body of the local fetchWithRetry in
src/registries/limeplay/scripts/sync.ts (identical in the aceternity
script): on failure at attempt i with attempts remaining, sleep
RETRY_DELAY * (i + 1) — linear, not exponential. -/
def limeplayRetryLoop (oracle : Nat → Except String α) :
    Nat → Nat → FetchTrace α
  | _, 0 => { attempts := 0, sleeps := [], result := .error "Unknown fetch error" }
  | attempt, fuel + 1 =>
    match oracle attempt with
    | .ok v => { attempts := 1, sleeps := [], result := .ok v }
    | .error e =>
      if fuel = 0 then
        { attempts := 1, sleeps := [], result := .error e }
      else
        let rest := limeplayRetryLoop oracle (attempt + 1) fuel
        { attempts := rest.attempts + 1,
          sleeps := RETRY_DELAY * (attempt + 1) :: rest.sleeps,
          result := rest.result }

/-- The local fetchWithRetry of the limeplay (and aceternity) sync script,
default retries = RETRY_COUNT. -/
def limeplayFetchWithRetry (oracle : Nat → Except String α)
    (retries : Nat := RETRY_COUNT) : FetchTrace α :=
  limeplayRetryLoop oracle 0 (retries + 1)

/-! ## Index entries, deduplication, filtering

RegistryIndexItem keeps the fields the sync scripts actually read from an
index entry (only the name drives behaviour; the type tags the entry kind). -/

structure RegistryIndexItem where
  name : String
  type : String
  deriving Repr, DecidableEq

/-- Loop body of deduplicateItems from
src/registries/limeplay/scripts/sync.ts: the seen set is modelled as the
list of names already kept. -/
def dedupGo (seen : List String) : List RegistryIndexItem → List RegistryIndexItem
  | [] => []
  | item :: rest =>
    if seen.contains item.name then dedupGo seen rest
    else item :: dedupGo (item.name :: seen) rest

/-- deduplicateItems from src/registries/limeplay/scripts/sync.ts:
drop entries whose name was already seen, keeping the first occurrence. -/
def deduplicateItems (items : List RegistryIndexItem) : List RegistryIndexItem :=
  dedupGo [] items

/-- Independent specification of first-occurrence deduplication: keep the
head, erase every later entry with the same name, recurse.  Used to state
that deduplicateItems returns exactly the first occurrences in order. -/
def firstOccurrences : List RegistryIndexItem → List RegistryIndexItem
  | [] => []
  | x :: xs => x :: firstOccurrences (xs.filter (fun y => y.name != x.name))
termination_by l => l.length
decreasing_by
  simp only [List.length_cons]
  exact Nat.lt_succ_of_le (List.length_filter_le _ _)

/-- fetchRegistryIndex of the limeplay sync script, applied to the decoded
item list: it deduplicates before anything else happens. -/
def limeplayFetchRegistryIndex (fetchedItems : List RegistryIndexItem) :
    List RegistryIndexItem :=
  deduplicateItems fetchedItems

/-- fetchRegistryIndex of the aceternity sync script, applied to the decoded
item list: the items are returned unchanged (no deduplication). -/
def aceternityFetchRegistryIndex (fetchedItems : List RegistryIndexItem) :
    List RegistryIndexItem :=
  fetchedItems

/-- The filter stage of downloadComponents in the limeplay sync script:
an optional --only allow-list, then the config exclude deny-list (applied
only when non-empty, which changes nothing semantically).  No include list
is consulted anywhere in the script. -/
def limeplayFilter (items : List RegistryIndexItem) (only : Option (List String))
    (exclude : List String) : List RegistryIndexItem :=
  let filtered : List RegistryIndexItem :=
    match only with
    | some fl => items.filter (fun it => fl.contains it.name)
    | none => items
  if exclude.length > 0 then
    filtered.filter (fun it => !(exclude.contains it.name))
  else filtered

/-- The filter stage of downloadComponents in the aceternity sync script:
only the optional --only allow-list is applied. -/
def aceternityFilter (items : List RegistryIndexItem) (only : Option (List String)) :
    List RegistryIndexItem :=
  match only with
  | some fl => items.filter (fun it => fl.contains it.name)
  | none => items

/-- Modelled from the spec (section 4.4 Filtering), for comparison with the
code: apply (a) the caller-supplied only allow-list, (b) the source config
include allow-list when non-empty, (c) the exclude deny-list. -/
def specFilterWorkingSet (items : List RegistryIndexItem) (only : Option (List String))
    (includeList exclude : List String) : List RegistryIndexItem :=
  let s1 : List RegistryIndexItem :=
    match only with
    | some fl => items.filter (fun it => fl.contains it.name)
    | none => items
  let s2 :=
    if includeList.length > 0 then s1.filter (fun it => includeList.contains it.name)
    else s1
  s2.filter (fun it => !(exclude.contains it.name))

/-! ## The limeplay sync pipeline

The per-item detail fetch is abstracted by an oracle from the item name to
the outcome fetchWithRetry would finally produce for its URL.  The shared
work queue consumed by min(CONCURRENCY, n) workers is modelled by its
sequential schedule: every queue entry is popped and processed exactly
once, so the per-item outcomes, counts and the set of files written are
the same under every interleaving. -/

/-- CONCURRENCY from the limeplay / aceternity sync scripts. -/
def CONCURRENCY : Nat := 5

/-- fetchComponent from the limeplay sync script: a fetch failure is caught
and turned into null (the error object itself is discarded). -/
def fetchComponent (oracle : String → Except String Json) (name : String) : Option Json :=
  match oracle name with
  | .ok item => some item
  | .error _ => none

/-- One entry of the items array built by saveRegistryIndex: the listed
fields are read off the component (absent fields are undefined and are
dropped by JSON.stringify). -/
structure ItemSummary where
  name : Option Json
  type : Option Json
  title : Option Json
  author : Option Json
  description : Option Json
  categories : Option Json
  dependencies : Option Json
  registryDependencies : Option Json

/-- The items projection in saveRegistryIndex. -/
def summarize (item : Json) : ItemSummary :=
  { name := item.field "name", type := item.field "type",
    title := item.field "title", author := item.field "author",
    description := item.field "description", categories := item.field "categories",
    dependencies := item.field "dependencies",
    registryDependencies := item.field "registryDependencies" }

/-- The aggregate index object built by saveRegistryIndex. -/
structure AggregateIndex where
  schema : String
  name : String
  homepage : String
  syncedAt : String
  itemCount : Nat
  items : List ItemSummary

/-- The source configuration fields relevant to the modelled behaviour
(from the per-registry config files): the registry name, its homepage, and
the output.generateIndex toggle, which the sync scripts never read. -/
structure RegistryConfig where
  name : String
  homepage : String
  generateIndex : Bool

/-- The index value written by saveRegistryIndex (to both index.json and
registry.json). -/
def buildAggregate (cfg : RegistryConfig) (now : String) (components : List Json) :
    AggregateIndex :=
  { schema := "https://ui.shadcn.com/schema/registry.json"
    name := cfg.name
    homepage := cfg.homepage
    syncedAt := now
    itemCount := components.length
    items := components.map summarize }

/-- Content of one file written by the pipeline: a per-item JSON file, or
one of the two aggregate index files. -/
inductive FileContent where
  | itemFile : Json → FileContent
  | indexFile : AggregateIndex → FileContent

/-- The file name used by saveComponent: the template `${item.name}.json`
applied to the fetched value. -/
def itemFileName (item : Json) : String :=
  jsTemplate (item.field "name") ++ ".json"

/-- Everything observable about one limeplay pipeline run. -/
structure SyncRun where
  deduped : List RegistryIndexItem
  working : List RegistryIndexItem
  detailFetches : List String
  components : List Json
  failed : List String
  aggregate : AggregateIndex
  writes : List (String × FileContent)

/-- The limeplay sync main flow: fetchRegistryIndex (with dedup), filter,
download every working-set entry (also in dry-run mode), then - unless the
component list is empty - save each component and the two index files,
skipping all disk writes when dryRun is set.  Writes are listed in program
order: item files in results order, then index.json, then registry.json. -/
def runSync (cfg : RegistryConfig) (oracle : String → Except String Json)
    (indexItems : List RegistryIndexItem) (only : Option (List String))
    (exclude : List String) (dryRun : Bool) (now : String) : SyncRun :=
  let deduped := limeplayFetchRegistryIndex indexItems
  let working := limeplayFilter deduped only exclude
  let fetched := working.map (fun it => (it.name, fetchComponent oracle it.name))
  let components := fetched.filterMap (fun p => p.2)
  let failed := fetched.filterMap (fun p =>
    match p.2 with
    | some _ => none
    | none => some p.1)
  let aggregate := buildAggregate cfg now components
  let writes :=
    if components.isEmpty then []
    else if dryRun then []
    else
      components.map (fun c => (itemFileName c, FileContent.itemFile c)) ++
        [("index.json", FileContent.indexFile aggregate),
         ("registry.json", FileContent.indexFile aggregate)]
  { deduped := deduped
    working := working
    detailFetches := working.map (fun it => it.name)
    components := components
    failed := failed
    aggregate := aggregate
    writes := writes }

/-- Projection keeping only the per-item file writes. -/
def itemWriteOf : String × FileContent → Option (String × Json)
  | (p, FileContent.itemFile j) => some (p, j)
  | _ => none

/-- Projection keeping only the aggregate index file writes. -/
def indexWriteOf : String × FileContent → Option (String × AggregateIndex)
  | (p, FileContent.indexFile ag) => some (p, ag)
  | _ => none

/-- Boolean success test for a fetch outcome. -/
def fetchOk (r : Except String Json) : Bool :=
  match r with
  | .ok _ => true
  | .error _ => false

/-! ## The multi-source runner (src/scripts/sync-all.ts)

One source run is abstracted as a function from the registry name to the
pair of the events it emits (its observable side effects, in order) and
its outcome: ok, or the exception / non-zero exit it raised. -/

structure SourceResult where
  name : String
  success : Bool
  error : Option String
  deriving Repr, DecidableEq

/-- What the catch block of the runner records for one source. -/
def mkSourceResult (runSource : String → List ε × Except String Unit)
    (n : String) : SourceResult :=
  match (runSource n).2 with
  | .ok _ => { name := n, success := true, error := none }
  | .error e => { name := n, success := false, error := some e }

/-- The for-loop of sync-all.ts main: run each source in turn (awaiting it
before the next starts), record its result, and concatenate the emitted
events in order. -/
def syncAllLoop (runSource : String → List ε × Except String Unit) :
    List String → List SourceResult × List ε
  | [] => ([], [])
  | n :: rest =>
    let step := runSource n
    let tail := syncAllLoop runSource rest
    (mkSourceResult runSource n :: tail.1, step.1 ++ tail.2)

/-- Aggregate outcome of sync-all.ts main. -/
structure RunAllOutcome (ε : Type) where
  results : List SourceResult
  trace : List ε
  exitCode : Nat

/-- main of src/scripts/sync-all.ts: exit 1 when no registries are found;
otherwise run every source sequentially and exit 1 exactly when the failed
count is positive. -/
def syncAllMain (runSource : String → List ε × Except String Unit)
    (registryNames : List String) : RunAllOutcome ε :=
  if registryNames.isEmpty then { results := [], trace := [], exitCode := 1 }
  else
    let run := syncAllLoop runSource registryNames
    let failed := (run.1.filter (fun r => !r.success)).length
    { results := run.1, trace := run.2, exitCode := if failed > 0 then 1 else 0 }

/-! ## Side conditions used in claim statements -/

/-- Whether a list of JSON values has a null element. -/
def listHasNull : List Json → Bool
  | [] => false
  | Json.null :: _ => true
  | _ :: rest => listHasNull rest

/-- The inputs on which the files loop of validateRegistryItem cannot reach
a null element: if a files field is present and is an array, no element is
null. -/
def filesNullFreeB (item : Json) : Bool :=
  match item.field "files" with
  | some (Json.arr xs) => !(listHasNull xs)
  | _ => true


/-! ## Concrete fixtures used in claim instances -/

def entA : RegistryIndexItem := { name := "a", type := "registry:ui" }

def entB : RegistryIndexItem := { name := "b", type := "registry:ui" }

def entC : RegistryIndexItem := { name := "c", type := "registry:ui" }

/-- A well-formed detail payload for an item name. -/
def mkDetail (n : String) : Json :=
  Json.obj [("name", Json.str n), ("type", Json.str "registry:ui")]

def cfgTest : RegistryConfig :=
  { name := "limeplay", homepage := "https://limeplay.winoffrg.dev", generateIndex := true }

/-- A config whose generateIndex toggle is off. -/
def cfgNoIndex : RegistryConfig :=
  { name := "limeplay", homepage := "https://limeplay.winoffrg.dev", generateIndex := false }

def now0 : String := "2026-02-03T04:05:06.000Z"

/-- A fetched detail value that fails validateRegistryItem. -/
def badItemA : Json := Json.obj [("name", Json.str "a"), ("type", Json.str "bogus")]

/-- Detail oracle returning an invalid item for a and 404 otherwise. -/
def oracleBad : String → Except String Json := fun n =>
  if n = "a" then .ok badItemA else .error "HTTP 404: Not Found"

/-- Detail oracle where every fetch succeeds. -/
def oracleGood : String → Except String Json := fun n => .ok (mkDetail n)

/-- Detail oracle failing exactly on b. -/
def oracleDropB : String → Except String Json := fun n =>
  if n = "b" then .error "HTTP 404: Not Found" else .ok (mkDetail n)

/-- A five-entry working set. -/
def ents7 : List RegistryIndexItem :=
  [{ name := "accordion", type := "registry:ui" }, { name := "button", type := "registry:ui" },
   { name := "card", type := "registry:ui" }, { name := "dialog", type := "registry:ui" },
   { name := "input", type := "registry:ui" }]

/-- Detail oracle failing exactly on card, with error message e. -/
def oracle7 (e : String) : String → Except String Json := fun n =>
  if n = "card" then .error e else .ok (mkDetail n)

/-! ## Theorems -/

theorem sharedRetryLoop_allFail (errs : Nat → String) (baseDelay : Nat) :
    ∀ fuel attempt,
      sharedRetryLoop (α := α) (fun k => .error (errs k)) baseDelay attempt (fuel + 1) =
        { attempts := fuel + 1,
          sleeps := (List.range fuel).map (fun k => baseDelay * 2 ^ (attempt + k)),
          result := .error (errs (attempt + fuel)) } := by
  intro fuel
  induction fuel with
  | zero => intro attempt; simp [sharedRetryLoop]
  | succ n ih =>
    intro attempt
    rw [sharedRetryLoop]
    simp only [ih (attempt + 1)]
    simp [List.range_succ_eq_map, List.map_map, Function.comp]
    constructor
    · intro a _
      omega
    · congr 1
      omega

theorem limeplayRetryLoop_allFail (errs : Nat → String) :
    ∀ fuel attempt,
      limeplayRetryLoop (α := α) (fun k => .error (errs k)) attempt (fuel + 1) =
        { attempts := fuel + 1,
          sleeps := (List.range fuel).map (fun k => RETRY_DELAY * (attempt + k + 1)),
          result := .error (errs (attempt + fuel)) } := by
  intro fuel
  induction fuel with
  | zero => intro attempt; simp [limeplayRetryLoop]
  | succ n ih =>
    intro attempt
    rw [limeplayRetryLoop]
    simp only [ih (attempt + 1)]
    simp [List.range_succ_eq_map, List.map_map, Function.comp]
    constructor
    · intro a _
      omega
    · congr 1
      omega

/-! ### Deduplication lemmas -/

theorem dedupGo_eq_firstOccurrences :
    ∀ (l : List RegistryIndexItem) (seen : List String),
      dedupGo seen l = firstOccurrences (l.filter (fun y => !(seen.contains y.name))) := by
  intro l
  induction l with
  | nil => intro seen; simp [dedupGo, firstOccurrences]
  | cons x xs ih =>
    intro seen
    by_cases h : x.name ∈ seen
    · rw [dedupGo, if_pos (by simpa using h),
        List.filter_cons_of_neg (by simpa using h), ih]
    · rw [dedupGo, if_neg (by simpa using h),
        List.filter_cons_of_pos (by simpa using h), firstOccurrences,
        ih (x.name :: seen), List.filter_filter]
      congr 2
      apply List.filter_congr
      intro y _
      simp only [List.contains_cons, Bool.not_or, bne]

theorem deduplicateItems_eq_firstOccurrences (l : List RegistryIndexItem) :
    deduplicateItems l = firstOccurrences l := by
  rw [deduplicateItems, dedupGo_eq_firstOccurrences]
  congr 1
  simp

theorem dedupGo_names_nodup :
    ∀ (l : List RegistryIndexItem) (seen : List String),
      ((dedupGo seen l).map (fun it => it.name)).Nodup ∧
        ∀ n ∈ seen, n ∉ (dedupGo seen l).map (fun it => it.name) := by
  intro l
  induction l with
  | nil => intro seen; simp [dedupGo]
  | cons x xs ih =>
    intro seen
    by_cases h : x.name ∈ seen
    · rw [dedupGo, if_pos (by simpa using h)]
      exact ih seen
    · rw [dedupGo, if_neg (by simpa using h)]
      refine ⟨?_, ?_⟩
      · simp only [List.map_cons, List.nodup_cons]
        exact ⟨(ih (x.name :: seen)).2 x.name (by simp), (ih (x.name :: seen)).1⟩
      · intro n hn
        simp only [List.map_cons, List.mem_cons, not_or]
        refine ⟨?_, ?_⟩
        · intro hEq
          rw [hEq] at hn
          exact h hn
        · exact (ih (x.name :: seen)).2 n (by simp [hn])

theorem dedupGo_id_of_nodup :
    ∀ (l : List RegistryIndexItem) (seen : List String),
      (∀ n ∈ l.map (fun it => it.name), n ∉ seen) →
      (l.map (fun it => it.name)).Nodup → dedupGo seen l = l := by
  intro l
  induction l with
  | nil => intro seen _ _; rfl
  | cons x xs ih =>
    intro seen hseen hnd
    have hx : x.name ∉ seen := hseen x.name (by simp)
    have hnd2 : x.name ∉ xs.map (fun it => it.name) ∧
        (xs.map (fun it => it.name)).Nodup := by
      simp only [List.map_cons, List.nodup_cons] at hnd
      simpa using hnd
    rw [dedupGo, if_neg (by simpa using hx)]
    congr 1
    apply ih (x.name :: seen)
    · intro n hn
      have h1 : n ∉ seen := hseen n (by simp [hn])
      have hne : n ≠ x.name := by
        intro hEq
        rw [hEq] at hn
        exact hnd2.1 hn
      simp [hne, h1]
    · exact hnd2.2

theorem deduplicateItems_names_nodup (l : List RegistryIndexItem) :
    ((deduplicateItems l).map (fun it => it.name)).Nodup :=
  (dedupGo_names_nodup l []).1

theorem deduplicateItems_id_of_nodup (l : List RegistryIndexItem)
    (h : (l.map (fun it => it.name)).Nodup) : deduplicateItems l = l :=
  dedupGo_id_of_nodup l [] (by intro n _; simp) h

theorem deduplicateItems_idem (l : List RegistryIndexItem) :
    deduplicateItems (deduplicateItems l) = deduplicateItems l :=
  deduplicateItems_id_of_nodup _ (deduplicateItems_names_nodup l)


/-! ### Pipeline support lemmas -/

theorem runSync_writes (cfg : RegistryConfig) (oracle : String → Except String Json)
    (indexItems : List RegistryIndexItem) (only : Option (List String))
    (exclude : List String) (dryRun : Bool) (now : String) :
    (runSync cfg oracle indexItems only exclude dryRun now).writes =
      if (runSync cfg oracle indexItems only exclude dryRun now).components.isEmpty then []
      else if dryRun then []
      else
        (runSync cfg oracle indexItems only exclude dryRun now).components.map
            (fun c => (itemFileName c, FileContent.itemFile c)) ++
          [("index.json",
            FileContent.indexFile (runSync cfg oracle indexItems only exclude dryRun now).aggregate),
           ("registry.json",
            FileContent.indexFile (runSync cfg oracle indexItems only exclude dryRun now).aggregate)] :=
  rfl

theorem downloadComponents_length (oracle : String → Except String Json) :
    ∀ ws : List RegistryIndexItem,
      ((ws.map (fun it => (it.name, fetchComponent oracle it.name))).filterMap
          (fun p => p.2)).length =
        (ws.filter (fun it => fetchOk (oracle it.name))).length := by
  intro ws
  induction ws with
  | nil => rfl
  | cons x rest ih =>
    simp only [List.map_cons, List.filterMap_cons, List.filter_cons]
    cases hx : oracle x.name with
    | ok v =>
      have hc : fetchComponent oracle x.name = some v := by simp [fetchComponent, hx]
      rw [hc]
      simpa [fetchOk] using ih
    | error e =>
      have hc : fetchComponent oracle x.name = none := by simp [fetchComponent, hx]
      rw [hc]
      simpa [fetchOk] using ih

theorem downloadComponents_failed (oracle : String → Except String Json) :
    ∀ ws : List RegistryIndexItem,
      (ws.map (fun it => (it.name, fetchComponent oracle it.name))).filterMap
          (fun p =>
            match p.2 with
            | some _ => none
            | none => some p.1) =
        ((ws.filter (fun it => !(fetchOk (oracle it.name)))).map (fun it => it.name)) := by
  intro ws
  induction ws with
  | nil => rfl
  | cons x rest ih =>
    simp only [List.map_cons, List.filterMap_cons, List.filter_cons]
    cases hx : oracle x.name with
    | ok v =>
      have hc : fetchComponent oracle x.name = some v := by simp [fetchComponent, hx]
      rw [hc]
      simpa [fetchOk] using ih
    | error e =>
      have hc : fetchComponent oracle x.name = none := by simp [fetchComponent, hx]
      rw [hc]
      simpa [fetchOk] using ih

theorem filterMap_itemWriteOf_itemFiles (components : List Json) :
    (components.map (fun c => (itemFileName c, FileContent.itemFile c))).filterMap itemWriteOf =
      components.map (fun c => (itemFileName c, c)) := by
  induction components with
  | nil => rfl
  | cons c cs ih => simp [itemWriteOf, ih]

theorem filterMap_indexWriteOf_itemFiles (components : List Json) :
    (components.map (fun c => (itemFileName c, FileContent.itemFile c))).filterMap indexWriteOf =
      [] := by
  induction components with
  | nil => rfl
  | cons c cs ih => simp [indexWriteOf, ih]

theorem syncAllLoop_spec {ε : Type} (runSource : String → List ε × Except String Unit) :
    ∀ names : List String,
      (syncAllLoop runSource names).1 = names.map (mkSourceResult runSource) ∧
        (syncAllLoop runSource names).2 = names.flatMap (fun n => (runSource n).1) := by
  intro names
  induction names with
  | nil => exact ⟨rfl, rfl⟩
  | cons n rest ih => simp [syncAllLoop, ih.1, ih.2]

/-! ### Validator support lemmas -/

theorem jsGet_ok (f : Json) (k : String) (h : f ≠ Json.null) :
    jsGet f k = .ok (f.field k) := by
  cases f with
  | null => exact absurd rfl h
  | bool b => rfl
  | num n => rfl
  | str s => rfl
  | arr xs => rfl
  | obj kvs => rfl

theorem checkFiles_ok :
    ∀ (files : List Json) (i : Nat), listHasNull files = false →
      ∃ r, checkFiles files i = Except.ok r := by
  intro files
  induction files with
  | nil => intro i _; exact ⟨none, rfl⟩
  | cons f rest ih =>
    intro i h
    have hf : f ≠ Json.null := by
      intro hEq
      rw [hEq] at h
      simp [listHasNull] at h
    have hrest : listHasNull rest = false := by
      cases f with
      | null => exact absurd rfl hf
      | bool b => simpa [listHasNull] using h
      | num n => simpa [listHasNull] using h
      | str s => simpa [listHasNull] using h
      | arr xs => simpa [listHasNull] using h
      | obj kvs => simpa [listHasNull] using h
    simp only [checkFiles, jsGet_ok f "path" hf, jsGet_ok f "type" hf]
    by_cases hp : isNonEmptyString (f.field "path")
    · by_cases ht : isNonEmptyString (f.field "type")
      · simpa [hp, ht] using ih (i + 1) hrest
      · exact ⟨some s!"files[{i}]: missing type", by simp [hp, ht]⟩
    · exact ⟨some s!"files[{i}]: missing path", by simp [hp]⟩

theorem depsSection_ok (item : Json) (w : List String) :
    ∃ r, depsSection item w = Except.ok r := by
  unfold depsSection
  cases checkStringArray (item.field "dependencies") "dependencies" with
  | none =>
    cases checkStringArray (item.field "registryDependencies") "registryDependencies" with
    | none => exact ⟨_, rfl⟩
    | some e => exact ⟨_, rfl⟩
  | some e => exact ⟨_, rfl⟩

/-! ### Claim theorems -/

/-- C1 counterexample: in a normal (non-dry-run) limeplay sync run, an item
whose fetched value fails validateRegistryItem (error "Invalid type: bogus")
is nevertheless written to disk as a.json — the pipeline never validates. -/
theorem c1_counterexample :
    (runSync cfgTest oracleBad [entA] none [] false now0).writes.filterMap itemWriteOf =
      [("a.json", badItemA)] ∧
    validateRegistryItem badItemA = .ok (.invalid "Invalid type: bogus") :=
  ⟨rfl, rfl⟩

/-- C1 amended: the limeplay sync pipeline performs no validation step: in a
non-dry-run the per-item files written are exactly the successfully fetched
components, stored as fetched, with no dependence on validateRegistryItem. -/
theorem c1_items_written_without_validation (cfg : RegistryConfig)
    (oracle : String → Except String Json) (items : List RegistryIndexItem)
    (only : Option (List String)) (exclude : List String) (now : String) :
    (runSync cfg oracle items only exclude false now).writes.filterMap itemWriteOf =
      (runSync cfg oracle items only exclude false now).components.map
        (fun c => (itemFileName c, c)) := by
  rw [runSync_writes]
  by_cases hE : (runSync cfg oracle items only exclude false now).components.isEmpty
  · rw [if_pos hE, List.isEmpty_iff.mp hE]
    rfl
  · rw [if_neg hE, if_neg (by simp)]
    rw [List.filterMap_append, filterMap_itemWriteOf_itemFiles]
    simp [itemWriteOf]

/-- C2 counterexample: with dryRun = true the limeplay pipeline still
fetches every working-set detail endpoint (here "a" and "b"), and when a
fetch fails the reported component count (1) is below the working-set size
(2); no disk write occurs. -/
theorem c2_counterexample :
    (runSync cfgTest oracleDropB [entA, entB] none [] true now0).detailFetches = ["a", "b"] ∧
    (runSync cfgTest oracleDropB [entA, entB] none [] true now0).components.length = 1 ∧
    (runSync cfgTest oracleDropB [entA, entB] none [] true now0).working.length = 2 ∧
    (runSync cfgTest oracleDropB [entA, entB] none [] true now0).writes = [] :=
  ⟨rfl, rfl, rfl, rfl⟩

/-- C2 amended: with dryRun = true the pipeline writes nothing to disk, but
the detail endpoint of every working-set entry is still fetched, and the
reported component count equals the number of working-set entries whose
detail fetch succeeds. -/
theorem c2_dry_run_behaviour (cfg : RegistryConfig) (oracle : String → Except String Json)
    (items : List RegistryIndexItem) (only : Option (List String))
    (exclude : List String) (now : String) :
    (runSync cfg oracle items only exclude true now).writes = [] ∧
    (runSync cfg oracle items only exclude true now).detailFetches =
      (limeplayFilter (deduplicateItems items) only exclude).map (fun it => it.name) ∧
    (runSync cfg oracle items only exclude true now).components.length =
      ((limeplayFilter (deduplicateItems items) only exclude).filter
        (fun it => fetchOk (oracle it.name))).length := by
  refine ⟨?_, rfl, downloadComponents_length oracle _⟩
  rw [runSync_writes]
  by_cases hE : (runSync cfg oracle items only exclude true now).components.isEmpty
  · rw [if_pos hE]
  · rw [if_neg hE, if_pos rfl]

/-- C3 counterexample: the local fetchWithRetry of the limeplay/aceternity
sync scripts uses linear backoff RETRY_DELAY * k, not exponential: with
its default retries = 3 and every attempt failing, the sleeps are
[1000, 2000, 3000], not [1000, 2000, 4000] as baseDelay * 2 ^ (k-1)
would give. -/
theorem c3_counterexample :
    (limeplayFetchWithRetry (α := Json)
        (fun _ => .error "HTTP 500: Internal Server Error") 3).sleeps = [1000, 2000, 3000] ∧
    (limeplayFetchWithRetry (α := Json)
        (fun _ => .error "HTTP 500: Internal Server Error") 3).sleeps ≠
      (List.range 3).map (fun k => 1000 * 2 ^ k) :=
  ⟨rfl, by decide⟩

/-- C3 amended: when every attempt fails, the shared fetchWithRetry
(src/shared/fetch.ts) makes exactly retries + 1 attempts, sleeps
baseDelay * 2 ^ (k-1) ms before attempt k (pure exponential backoff), and
fails with exactly the final error; with retries = 2, baseDelay = 100 it
makes 3 attempts and its sleeps sum to 300 ms.  The limeplay/aceternity
scripts use a local fetchWithRetry that also makes retries + 1 attempts
and keeps only the final error, but sleeps RETRY_DELAY * k ms before
attempt k (linear backoff with fixed RETRY_DELAY = 1000). -/
theorem c3_retry_behaviour (errs : Nat → String) (retries baseDelay : Nat) :
    (fetchWithRetry (α := Json) (fun k => .error (errs k)) retries baseDelay).attempts =
      retries + 1 ∧
    (fetchWithRetry (α := Json) (fun k => .error (errs k)) retries baseDelay).sleeps =
      (List.range retries).map (fun k => baseDelay * 2 ^ k) ∧
    (fetchWithRetry (α := Json) (fun k => .error (errs k)) retries baseDelay).result =
      .error (errs retries) ∧
    (limeplayFetchWithRetry (α := Json) (fun k => .error (errs k)) retries).attempts =
      retries + 1 ∧
    (limeplayFetchWithRetry (α := Json) (fun k => .error (errs k)) retries).sleeps =
      (List.range retries).map (fun k => RETRY_DELAY * (k + 1)) ∧
    (limeplayFetchWithRetry (α := Json) (fun k => .error (errs k)) retries).result =
      .error (errs retries) ∧
    (fetchWithRetry (α := Json) (fun k => .error (errs k)) 2 100).attempts = 3 ∧
    (fetchWithRetry (α := Json) (fun k => .error (errs k)) 2 100).sleeps.sum = 300 := by
  have hs := sharedRetryLoop_allFail (α := Json) errs baseDelay retries 0
  have hl := limeplayRetryLoop_allFail (α := Json) errs retries 0
  refine ⟨?_, ?_, ?_, ?_, ?_, ?_, rfl, rfl⟩
  · rw [fetchWithRetry, hs]
  · rw [fetchWithRetry, hs]
    simp
  · rw [fetchWithRetry, hs]
    simp
  · rw [limeplayFetchWithRetry, hl]
  · rw [limeplayFetchWithRetry, hl]
    simp
  · rw [limeplayFetchWithRetry, hl]
    simp

/-- C4 counterexample: the spec-mandated working set applies the include
allow-list, the code does not: on entries {a, b} with no only filter,
include = {b}, exclude = {}, the spec working set is {b} while the
limeplay code keeps {a, b}. -/
theorem c4_counterexample :
    specFilterWorkingSet [entA, entB] none ["b"] [] = [entB] ∧
    limeplayFilter [entA, entB] none [] = [entA, entB] ∧
    ([entB] : List RegistryIndexItem) ≠ [entA, entB] :=
  ⟨rfl, rfl, by decide⟩

/-- C4 amended: the limeplay working set keeps exactly the entries passing
the optional only allow-list and the exclude deny-list (the include list
is never consulted); on entries {a, b, c} with only = {a, b},
exclude = {b} the working set is exactly {a}; and the failed list only
ever names working-set entries whose fetch failed, so entries outside the
working set are neither errors nor failures. -/
theorem c4_working_set :
    (∀ (items : List RegistryIndexItem) (only : Option (List String))
        (exclude : List String) (it : RegistryIndexItem),
      it ∈ limeplayFilter items only exclude ↔
        it ∈ items ∧
          (match only with
            | some fl => it.name ∈ fl
            | none => True) ∧
          it.name ∉ exclude) ∧
    limeplayFilter [entA, entB, entC] (some ["a", "b"]) ["b"] = [entA] ∧
    (∀ (cfg : RegistryConfig) (oracle : String → Except String Json)
        (items : List RegistryIndexItem) (only : Option (List String))
        (exclude : List String) (dryRun : Bool) (now : String),
      (runSync cfg oracle items only exclude dryRun now).failed =
        ((limeplayFilter (deduplicateItems items) only exclude).filter
          (fun it => !(fetchOk (oracle it.name)))).map (fun it => it.name)) := by
  refine ⟨?_, rfl, ?_⟩
  · intro items only exclude it
    cases only with
    | none =>
      cases exclude with
      | nil => simp [limeplayFilter]
      | cons e es => simp [limeplayFilter, List.mem_filter]
    | some fl =>
      cases exclude with
      | nil => simp [limeplayFilter, List.mem_filter]
      | cons e es =>
        simp [limeplayFilter, List.mem_filter]
        tauto
  · intro cfg oracle items only exclude dryRun now
    exact downloadComponents_failed oracle _

/-- C5 counterexample: the generateIndex toggle is not consulted: a
non-dry-run with generateIndex = false still writes index.json and
registry.json. -/
theorem c5_counterexample :
    cfgNoIndex.generateIndex = false ∧
    (runSync cfgNoIndex oracleGood [entA] none [] false now0).writes.map Prod.fst =
      ["a.json", "index.json", "registry.json"] :=
  ⟨rfl, rfl⟩

/-- C5 amended: the two aggregate index files are written iff the run is
not a dry run and at least one component was fetched (the config
generateIndex toggle is never read); when written, index.json and
registry.json carry the identical aggregate value, whose item list is
exactly the summaries of the components that succeeded this run and whose
itemCount is their number. -/
theorem c5_index_generation (cfg : RegistryConfig) (oracle : String → Except String Json)
    (items : List RegistryIndexItem) (only : Option (List String))
    (exclude : List String) (dryRun : Bool) (now : String) :
    ((runSync cfg oracle items only exclude dryRun now).writes.filterMap indexWriteOf =
      if !dryRun && !(runSync cfg oracle items only exclude dryRun now).components.isEmpty then
        [("index.json", (runSync cfg oracle items only exclude dryRun now).aggregate),
         ("registry.json", (runSync cfg oracle items only exclude dryRun now).aggregate)]
      else []) ∧
    (runSync cfg oracle items only exclude dryRun now).aggregate.itemCount =
      (runSync cfg oracle items only exclude dryRun now).components.length ∧
    (runSync cfg oracle items only exclude dryRun now).aggregate.items =
      (runSync cfg oracle items only exclude dryRun now).components.map summarize := by
  refine ⟨?_, rfl, rfl⟩
  rw [runSync_writes]
  by_cases hE : (runSync cfg oracle items only exclude dryRun now).components.isEmpty
  · rw [if_pos hE]
    simp [hE]
  · rw [if_neg hE]
    cases dryRun with
    | false =>
      rw [if_neg (by simp)]
      rw [List.filterMap_append, filterMap_indexWriteOf_itemFiles]
      simp [indexWriteOf, hE]
    | true =>
      rw [if_pos rfl]
      simp

/-- C6: validator boundary cases: {name: "x", type: "registry:component"}
is valid with only the missing-schema warning; {name: "x", type: "bogus"}
is invalid with error "Invalid type: bogus"; {name: 1, type: "registry:ui"}
is invalid with the missing-name error. -/
theorem c6_validator_boundary :
    validateRegistryItem
        (Json.obj [("name", Json.str "x"), ("type", Json.str "registry:component")]) =
      .ok (.valid (some ["Missing $schema field"])) ∧
    validateRegistryItem (Json.obj [("name", Json.str "x"), ("type", Json.str "bogus")]) =
      .ok (.invalid "Invalid type: bogus") ∧
    validateRegistryItem (Json.obj [("name", Json.num 1), ("type", Json.str "registry:ui")]) =
      .ok (.invalid "Missing or invalid name field") :=
  ⟨rfl, rfl, rfl⟩

/-- C7 counterexample: the error message of the failing entry is not part of
the pipeline outcome: two runs whose card fetch fails with different error
messages produce identical SyncRun values (fetchComponent discards the
error), so the outcome cannot name item 3 with its error message. -/
theorem c7_counterexample :
    runSync cfgTest (oracle7 "HTTP 404: Not Found") ents7 none [] false now0 =
      runSync cfgTest (oracle7 "ECONNRESET: connection reset by peer") ents7 none [] false now0 ∧
    "HTTP 404: Not Found" ≠ "ECONNRESET: connection reset by peer" :=
  ⟨rfl, by decide⟩

/-- C7 amended: for a working set of 5 entries where exactly the card
fetch always fails, the run completes with 4 components, the failed list
names exactly card (but carries no error message), the 4 succeeding items
plus the two index files are written, and no card.json is written. -/
theorem c7_partial_failure_isolation (e : String) :
    (runSync cfgTest (oracle7 e) ents7 none [] false now0).components.length = 4 ∧
    (runSync cfgTest (oracle7 e) ents7 none [] false now0).failed = ["card"] ∧
    (runSync cfgTest (oracle7 e) ents7 none [] false now0).writes.map Prod.fst =
      ["accordion.json", "button.json", "dialog.json", "input.json",
       "index.json", "registry.json"] ∧
    "card.json" ∉ (runSync cfgTest (oracle7 e) ents7 none [] false now0).writes.map Prod.fst := by
  have h3 : (runSync cfgTest (oracle7 e) ents7 none [] false now0).writes.map Prod.fst =
      ["accordion.json", "button.json", "dialog.json", "input.json",
       "index.json", "registry.json"] := rfl
  refine ⟨rfl, rfl, h3, ?_⟩
  rw [h3]
  decide

/-- C8 counterexample: the aceternity pipeline does not deduplicate: its
index fetch returns the entry list unchanged, so the working set can
contain duplicate names. -/
theorem c8_counterexample :
    aceternityFetchRegistryIndex [entA, entA] = [entA, entA] ∧
    aceternityFilter (aceternityFetchRegistryIndex [entA, entA]) none = [entA, entA] ∧
    ¬ (([entA, entA].map (fun it => it.name)).Nodup) :=
  ⟨rfl, rfl, by decide⟩

/-- C8 amended: the limeplay pipeline deduplicates by name before any
fetching (its detail fetches are drawn from the deduplicated, filtered
set); deduplication keeps exactly the first occurrence of each name in
order, yields pairwise distinct names, is idempotent, and is the identity
on lists with unique names.  (The aceternity pipeline performs no such
deduplication.) -/
theorem c8_deduplication :
    (∀ l : List RegistryIndexItem, ((deduplicateItems l).map (fun it => it.name)).Nodup) ∧
    (∀ l : List RegistryIndexItem, deduplicateItems l = firstOccurrences l) ∧
    (∀ l : List RegistryIndexItem,
      deduplicateItems (deduplicateItems l) = deduplicateItems l) ∧
    (∀ l : List RegistryIndexItem,
      (l.map (fun it => it.name)).Nodup → deduplicateItems l = l) ∧
    (∀ (cfg : RegistryConfig) (oracle : String → Except String Json)
        (items : List RegistryIndexItem) (only : Option (List String))
        (exclude : List String) (dryRun : Bool) (now : String),
      (runSync cfg oracle items only exclude dryRun now).detailFetches =
        (limeplayFilter (deduplicateItems items) only exclude).map (fun it => it.name)) :=
  ⟨deduplicateItems_names_nodup, deduplicateItems_eq_firstOccurrences,
   deduplicateItems_idem, deduplicateItems_id_of_nodup,
   fun _ _ _ _ _ _ _ => rfl⟩

/-- C8 witness: the identity-on-unique-names part of c8_deduplication at a
concrete list. -/
theorem c8_witness : deduplicateItems [entA, entB] = [entA, entB] :=
  c8_deduplication.2.2.2.1 [entA, entB] (by decide)

/-- C9: the multi-source runner processes sources strictly sequentially
(the global event trace is the concatenation of the per-source traces in
configuration order), records one result per source in order with the
error message of a source whose pipeline threw, and exits non-zero iff at
least one source failed. -/
theorem c9_runner_sequential {ε : Type} (runSource : String → List ε × Except String Unit)
    (names : List String) (h : names ≠ []) :
    (syncAllMain runSource names).results = names.map (mkSourceResult runSource) ∧
    (syncAllMain runSource names).trace = names.flatMap (fun n => (runSource n).1) ∧
    ((syncAllMain runSource names).exitCode = 1 ↔
      ∃ r ∈ (syncAllMain runSource names).results, r.success = false) ∧
    ((syncAllMain runSource names).exitCode = 0 ↔
      ∀ r ∈ (syncAllMain runSource names).results, r.success = true) := by
  have hne : ¬ names.isEmpty = true := by
    cases names with
    | nil => exact absurd rfl h
    | cons a l => simp
  have hmain : syncAllMain runSource names =
      { results := (syncAllLoop runSource names).1,
        trace := (syncAllLoop runSource names).2,
        exitCode :=
          if ((syncAllLoop runSource names).1.filter (fun r => !r.success)).length > 0
          then 1 else 0 } := by
    rw [syncAllMain, if_neg hne]
  rw [hmain]
  refine ⟨(syncAllLoop_spec runSource names).1, (syncAllLoop_spec runSource names).2, ?_, ?_⟩
  · by_cases hl : ((syncAllLoop runSource names).1.filter (fun r => !r.success)).length > 0
    · simp only [if_pos hl]
      constructor
      · intro _
        obtain ⟨r, hr⟩ := List.exists_mem_of_ne_nil _ (List.length_pos.mp hl)
        have hm := List.mem_filter.mp hr
        exact ⟨r, hm.1, by simpa using hm.2⟩
      · intro _
        trivial
    · simp only [if_neg hl]
      constructor
      · intro h01
        exact absurd h01 (by decide)
      · rintro ⟨r, hr, hs⟩
        exfalso
        apply hl
        have hmem : r ∈ (syncAllLoop runSource names).1.filter (fun r => !r.success) :=
          List.mem_filter.mpr ⟨hr, by simp [hs]⟩
        exact List.length_pos.mpr (List.ne_nil_of_mem hmem)
  · by_cases hl : ((syncAllLoop runSource names).1.filter (fun r => !r.success)).length > 0
    · simp only [if_pos hl]
      constructor
      · intro h10
        exact absurd h10 (by decide)
      · intro hall
        exfalso
        obtain ⟨r, hr⟩ := List.exists_mem_of_ne_nil _ (List.length_pos.mp hl)
        have hm := List.mem_filter.mp hr
        have hsucc := hall r hm.1
        have h2 := hm.2
        rw [hsucc] at h2
        simp at h2
    · simp only [if_neg hl]
      constructor
      · intro _ r hr
        by_contra hcon
        have hs : r.success = false := by simpa using hcon
        apply hl
        have hmem : r ∈ (syncAllLoop runSource names).1.filter (fun r => !r.success) :=
          List.mem_filter.mpr ⟨hr, by simp [hs]⟩
        exact List.length_pos.mpr (List.ne_nil_of_mem hmem)
      · intro _
        trivial

/-- C9 witness: c9_runner_sequential at a concrete two-source run where
the second source fails, giving exit code 1. -/
theorem c9_witness :
    (syncAllMain
        (fun n => ([n ++ ":start"],
          if n = "aceternity" then Except.error "Exit code: 1" else Except.ok ()))
        ["limeplay", "aceternity"]).exitCode = 1 := by
  have h := c9_runner_sequential
    (fun n => ([n ++ ":start"],
      if n = "aceternity" then Except.error "Exit code: 1" else Except.ok ()))
    ["limeplay", "aceternity"] (by decide)
  refine (h.2.2.1).mpr ?_
  rw [h.1]
  decide

/-- C10 counterexample: validateRegistryItem is not total: on
{name: "x", type: "registry:ui", files: [null]} the files loop reads
file.path on a null element and throws a TypeError instead of returning a
ValidationResult. -/
theorem c10_counterexample :
    validateRegistryItem (Json.obj [("name", Json.str "x"), ("type", Json.str "registry:ui"),
        ("files", Json.arr [Json.null])]) =
      .error "TypeError: cannot read properties of null (reading path)" :=
  rfl

/-- C10 amended: validateRegistryItem returns a ValidationResult (never
throws) on every input whose files field, when present as an array,
contains no null element. -/
theorem c10_validator_total_on_null_free (item : Json)
    (h : filesNullFreeB item = true) :
    ∃ r, validateRegistryItem item = Except.ok r := by
  unfold validateRegistryItem
  by_cases h1 : !(item.truthy && item.isObjectLike)
  · exact ⟨.invalid "Item must be an object", by rw [if_pos h1]⟩
  · rw [if_neg h1]
    by_cases h2 : !(isNonEmptyString (item.field "name"))
    · exact ⟨.invalid "Missing or invalid name field", by rw [if_pos h2]⟩
    · rw [if_neg h2]
      by_cases h3 : !(isNonEmptyString (item.field "type"))
      · exact ⟨.invalid "Missing or invalid type field", by rw [if_pos h3]⟩
      · rw [if_neg h3]
        by_cases h4 : !(VALID_ITEM_TYPES.contains (jsTemplate (item.field "type")))
        · exact ⟨.invalid ("Invalid type: " ++ jsTemplate (item.field "type")),
            by rw [if_pos h4]⟩
        · rw [if_neg h4]
          cases hff : item.field "files" with
          | none => exact depsSection_ok item _
          | some fv =>
            cases fv with
            | null => exact ⟨.invalid "files must be an array", rfl⟩
            | bool b => exact ⟨.invalid "files must be an array", rfl⟩
            | num n => exact ⟨.invalid "files must be an array", rfl⟩
            | str s2 => exact ⟨.invalid "files must be an array", rfl⟩
            | obj kvs => exact ⟨.invalid "files must be an array", rfl⟩
            | arr files =>
              have hnull : listHasNull files = false := by
                have hb := h
                unfold filesNullFreeB at hb
                rw [hff] at hb
                simpa using hb
              obtain ⟨r0, hr0⟩ := checkFiles_ok files 0 hnull
              simp only [hr0]
              cases r0 with
              | none => exact depsSection_ok item _
              | some msg => exact ⟨.invalid msg, rfl⟩

/-- C10 witness: c10_validator_total_on_null_free at a concrete item with
no files field. -/
theorem c10_witness :
    ∃ r, validateRegistryItem
        (Json.obj [("name", Json.str "x"), ("type", Json.str "registry:ui")]) =
      Except.ok r :=
  c10_validator_total_on_null_free _ (by decide)

end ShadcnRegistries
